import Mathlib

/-!
A shallow embedding of the interactive screenshot overlay
(`screenshot_tool/wayfire.py`, `screenshot_tool/ui/overlay.py`,
`screenshot_tool/ui/magnifier.py`, `screenshot_tool/capture.py`),
together with theorems checking the natural-language specification
against the embedded code.

Pointer coordinates are embedded as rationals (the source uses Python
floats for event coordinates); window geometry is embedded as integers.
Python's `int(...)` truncation toward zero is `pyInt`, Python's `abs`
on floats is `pyAbs`.
-/

set_option linter.unusedVariables false

attribute [local semireducible] Rat.add Rat.sub Rat.mul Rat.inv Rat.ofScientific

namespace ScreenshotTool

/-- Python `abs` on a (rational-valued) float. -/
def pyAbs (q : ℚ) : ℚ := if q < 0 then -q else q

/-- Python `int(...)`: truncation toward zero. -/
def pyInt (q : ℚ) : Int := if q < 0 then ⌈q⌉ else ⌊q⌋

theorem pyAbs_eq_abs (q : ℚ) : pyAbs q = |q| := by
  unfold pyAbs
  split_ifs with h
  · exact (abs_of_neg h).symm
  · exact (abs_of_nonneg (not_lt.mp h)).symm

theorem pyAbs_nonneg (q : ℚ) : 0 ≤ pyAbs q := by
  rw [pyAbs_eq_abs]; exact abs_nonneg q

theorem pyInt_nonneg {q : ℚ} (h : 0 ≤ q) : 0 ≤ pyInt q := by
  unfold pyInt
  split_ifs with h'
  · exact absurd h (not_le.mpr h')
  · exact_mod_cast Int.le_floor.mpr (by exact_mod_cast h)

/-! ## Data model

`Win` embeds the window dict built in `wayfire.get_window_geometries`
before the `z_order` key is assigned; `WindowInfo` is the dict after
`z_order` is assigned.  `View` embeds the raw view dict returned by
`sock.list_views()` (geometry fields flattened). -/

structure Win where
  id : Nat
  title : String
  app_id : String
  x : Int
  y : Int
  width : Int
  height : Int
  focus_timestamp : Int
deriving DecidableEq

structure WindowInfo extends Win where
  z_order : Nat
deriving DecidableEq

structure View where
  id : Nat
  title : String
  app_id : String
  mapped : Bool
  minimized : Bool
  vtype : String
  layer : String
  geo_x : Int
  geo_y : Int
  geo_width : Int
  geo_height : Int
  focus_timestamp : Int
deriving DecidableEq

/-! ## `wayfire.get_window_geometries` -/

/-- The filter in `get_window_geometries`: mapped, non-minimized,
toplevel, on the workspace layer, not the tool itself, non-empty
app id, and positive geometry. -/
def acceptView (v : View) : Bool :=
  v.mapped && !v.minimized && v.vtype == "toplevel" && v.layer == "workspace"
    && v.app_id != "screenshot-tool" && v.app_id != ""
    && decide (0 < v.geo_width) && decide (0 < v.geo_height)

def viewToWin (v : View) : Win :=
  { id := v.id, title := v.title, app_id := v.app_id,
    x := v.geo_x, y := v.geo_y, width := v.geo_width, height := v.geo_height,
    focus_timestamp := v.focus_timestamp }

def acceptedWindows (views : List View) : List Win :=
  (views.filter acceptView).map viewToWin

/-- The ordering used by `windows.sort(key=lambda w: w["focus_timestamp"],
reverse=True)`: `a` may come before `b` iff `b`'s timestamp is at most
`a`'s (descending by focus timestamp; Python's sort is stable). -/
def focusGe (a b : Win) : Bool := decide (b.focus_timestamp ≤ a.focus_timestamp)

def sortWindows (ws : List Win) : List Win := ws.mergeSort focusGe

/-- The `for i, window in enumerate(windows): window["z_order"] = i` loop. -/
def assignZFrom (i : Nat) : List Win → List WindowInfo
  | [] => []
  | w :: ws => { toWin := w, z_order := i } :: assignZFrom (i + 1) ws

def assignZ (ws : List Win) : List WindowInfo := assignZFrom 0 ws

def getWindowGeometries (views : List View) : List WindowInfo :=
  assignZ (sortWindows (acceptedWindows views))

theorem focusGe_trans : ∀ a b c : Win, focusGe a b → focusGe b c → focusGe a c := by
  intro a b c hab hbc
  simp only [focusGe, decide_eq_true_eq] at *
  exact le_trans hbc hab

theorem focusGe_total : ∀ a b : Win, focusGe a b || focusGe b a := by
  intro a b
  simp only [focusGe, Bool.or_eq_true, decide_eq_true_eq]
  exact le_total b.focus_timestamp a.focus_timestamp

theorem assignZFrom_map_z (ws : List Win) :
    ∀ i, (assignZFrom i ws).map (fun w => w.z_order) = List.range' i ws.length := by
  induction ws with
  | nil => intro i; rfl
  | cons w tl ih =>
      intro i
      simp [assignZFrom, List.range', ih (i + 1)]

theorem assignZFrom_map_toWin (ws : List Win) :
    ∀ i, (assignZFrom i ws).map (fun w => w.toWin) = ws := by
  induction ws with
  | nil => intro i; rfl
  | cons w tl ih =>
      intro i
      simp [assignZFrom, ih (i + 1)]

theorem assignZFrom_length (ws : List Win) :
    ∀ i, (assignZFrom i ws).length = ws.length := by
  induction ws with
  | nil => intro i; rfl
  | cons w tl ih =>
      intro i
      simp [assignZFrom, ih (i + 1)]

theorem sortWindows_perm (ws : List Win) : (sortWindows ws).Perm ws :=
  List.mergeSort_perm ws focusGe

theorem sortWindows_sorted (ws : List Win) :
    (sortWindows ws).Pairwise (fun a b => b.focus_timestamp ≤ a.focus_timestamp) := by
  have h := List.sorted_mergeSort focusGe_trans focusGe_total ws
  exact h.imp (fun hab => by simpa [focusGe] using hab)

/-- Stability of the embedded sort: the windows sharing any given focus
timestamp appear in the sorted output in exactly their input order. -/
theorem sortWindows_stable (ws : List Win) (t : Int) :
    (sortWindows ws).filter (fun w => w.focus_timestamp == t)
      = ws.filter (fun w => w.focus_timestamp == t) := by
  set p : Win → Bool := fun w => w.focus_timestamp == t with hp
  have hsub : List.Sublist (ws.filter p) ws := List.filter_sublist ws
  have hpair : (ws.filter p).Pairwise (fun a b => focusGe a b) := by
    apply List.pairwise_of_forall_mem_list
    intro a ha b hb
    have hat : a.focus_timestamp = t := by
      have := (List.mem_filter.mp ha).2
      simpa [hp] using this
    have hbt : b.focus_timestamp = t := by
      have := (List.mem_filter.mp hb).2
      simpa [hp] using this
    simp [focusGe, hat, hbt]
  have hstab : List.Sublist (ws.filter p) (sortWindows ws) :=
    List.sublist_mergeSort focusGe_trans focusGe_total hpair hsub
  have hperm : List.Perm ((sortWindows ws).filter p) (ws.filter p) :=
    (sortWindows_perm ws).filter p
  have hsub2 : List.Sublist (ws.filter p) ((sortWindows ws).filter p) := by
    have := hstab.filter p
    simpa [List.filter_filter] using this
  have hlen : (ws.filter p).length = ((sortWindows ws).filter p).length :=
    hperm.length_eq.symm
  exact (hsub2.eq_of_length hlen).symm

theorem assignZ_map_toWin (ws : List Win) :
    (assignZ ws).map (fun w => w.toWin) = ws :=
  assignZFrom_map_toWin ws 0

theorem assignZ_map_z (ws : List Win) :
    (assignZ ws).map (fun w => w.z_order) = List.range ws.length := by
  rw [assignZ, assignZFrom_map_z, List.range_eq_range']

theorem assignZ_length (ws : List Win) : (assignZ ws).length = ws.length :=
  assignZFrom_length ws 0

/-- Claim C4: for every list of views accepted by the registry filter,
`get_window_geometries` assigns `z_order` values forming a dense
permutation of `[0, N)`: windows are ordered by descending
`focus_timestamp`, ties keep their input order (stable sort), and the
i-th window in that order receives `z_order = i` (0 = frontmost). -/
theorem getWindowGeometries_z_order_spec (views : List View) :
    ((getWindowGeometries views).map (fun w => w.z_order)
        = List.range (getWindowGeometries views).length)
    ∧ List.Perm ((getWindowGeometries views).map (fun w => w.toWin))
        (acceptedWindows views)
    ∧ ((getWindowGeometries views).map (fun w => w.toWin)).Pairwise
        (fun a b => b.focus_timestamp ≤ a.focus_timestamp)
    ∧ ∀ t : Int,
        ((getWindowGeometries views).map (fun w => w.toWin)).filter
            (fun w => w.focus_timestamp == t)
          = (acceptedWindows views).filter (fun w => w.focus_timestamp == t) := by
  have hmap : (getWindowGeometries views).map (fun w => w.toWin)
      = sortWindows (acceptedWindows views) := assignZ_map_toWin _
  refine ⟨?_, ?_, ?_, ?_⟩
  · rw [getWindowGeometries, assignZ_map_z, assignZ_length]
  · rw [hmap]; exact sortWindows_perm _
  · rw [hmap]; exact sortWindows_sorted _
  · intro t; rw [hmap]; exact sortWindows_stable _ t

/-! ## Hit-testing (`ScreenshotOverlay._find_window_at`) -/

/-- The half-open box test `wx <= x < wx + ww and wy <= y < wy + wh`. -/
def windowContains (w : WindowInfo) (x y : ℚ) : Bool :=
  decide ((w.x : ℚ) ≤ x) && decide (x < (w.x : ℚ) + (w.width : ℚ))
    && decide ((w.y : ℚ) ≤ y) && decide (y < (w.y : ℚ) + (w.height : ℚ))

/-- `_find_window_at`: first window in list order whose box contains the
point (the list is stored in ascending `z_order`, frontmost first). -/
def findWindowAt (windows : List WindowInfo) (x y : ℚ) : Option WindowInfo :=
  windows.find? (fun w => windowContains w x y)

/-! ## Selection state machine (`ScreenshotOverlay` event handlers) -/

/-- The terminal action resolving an overlay session. -/
inductive Action where
  | captureWindow (w : WindowInfo)
  | captureRegion (x y : Int) (w h : Int)
  | cancel
deriving DecidableEq

/-- Input events fed to the overlay's handlers.  Key events carry the
raw GDK keyval, as compared against in `_on_key_press`. -/
inductive Event where
  | buttonPress (button : Nat)
  | buttonRelease (button : Nat)
  | motion (x y : ℚ)
  | key (keyval : Nat)
  | fullscreenSignal
deriving DecidableEq

def KEY_Left : Nat := 65361
def KEY_Up : Nat := 65362
def KEY_Right : Nat := 65363
def KEY_Down : Nat := 65364
def KEY_Escape : Nat := 65307
def KEY_Print : Nat := 65377
def KEY_space : Nat := 32
def KEY_SYSRQ : Nat := 65301
def KEY_Return : Nat := 65293

/-- The mutable fields of `ScreenshotOverlay`, plus two fields embedding
the collaborators touched by `_cleanup_and_exit`: `resolved` is true once
`Gtk.main_quit()` has been called (the event loop dispatches nothing
afterwards) and `instanceAlive` is true while the module-global
`_overlay_instance` still points at the overlay (the SIGUSR1 handler
checks it before acting). -/
structure OverlayState where
  windows : List WindowInfo
  img_width : Int
  img_height : Int
  selecting : Bool
  start_x : Option ℚ
  start_y : Option ℚ
  end_x : Option ℚ
  end_y : Option ℚ
  current_x : ℚ
  current_y : ℚ
  hovered : Option WindowInfo
  resolved : Bool
  instanceAlive : Bool
deriving DecidableEq

/-- `_cleanup_and_exit`: drop the global instance and quit the loop
(resource release and window destruction have no further observable
state here). -/
def cleanup (s : OverlayState) : OverlayState :=
  { s with resolved := true, instanceAlive := false }

/-- The drag branch shared by `_on_button_release` and the Enter branch
of `_on_key_press`: normalize with `int(min(..))` / `int(abs(..))` and
emit a region capture only when both truncated sides are positive. -/
def regionDragAction (sx sy ex ey : ℚ) : Option Action :=
  let x := pyInt (min sx ex)
  let y := pyInt (min sy ey)
  let w := pyInt (pyAbs (ex - sx))
  let h := pyInt (pyAbs (ey - sy))
  if 0 < w ∧ 0 < h then some (Action.captureRegion x y w h) else none

/-- Every handler path that produces a terminal action also runs
`_cleanup_and_exit` (directly for cancel, via the `finally` blocks of
`_take_screenshot` / `_take_window_screenshot` otherwise); `finalize`
applies that invariant to a handler's raw result. -/
def finalize : OverlayState × Option Action → OverlayState × Option Action
  | (s, some a) => (cleanup s, some a)
  | (s, none) => (s, none)

/-- `_on_button_press`. -/
def onButtonPress (s : OverlayState) (button : Nat) : OverlayState × Option Action :=
  if button = 3 then (s, some Action.cancel)
  else if button = 1 then
    ({ s with selecting := true, start_x := some s.current_x, start_y := some s.current_y },
      none)
  else (s, none)

/-- `_on_button_release`.  When no press has recorded a start corner the
Python handler raises a `TypeError` after its first two assignments; the
embedding keeps those assignments and produces no action. -/
def onButtonRelease (s : OverlayState) (button : Nat) : OverlayState × Option Action :=
  if button ≠ 1 then (s, none)
  else
    let s1 := { s with selecting := false,
                       end_x := some s.current_x, end_y := some s.current_y }
    match s1.start_x, s1.start_y with
    | some sx, some sy =>
        if pyAbs (s1.current_x - sx) < 5 ∧ pyAbs (s1.current_y - sy) < 5 then
          match s1.hovered with
          | some w => (s1, some (Action.captureWindow w))
          | none =>
              (s1, some (Action.captureRegion 0 0 s1.img_width s1.img_height))
        else (s1, regionDragAction sx sy s1.current_x s1.current_y)
    | _, _ => (s1, none)

/-- `_on_motion`: store the raw event coordinates (no clamping) and
re-run the hit test when not dragging. -/
def onMotion (s : OverlayState) (x y : ℚ) : OverlayState × Option Action :=
  if s.selecting then ({ s with current_x := x, current_y := y }, none)
  else
    ({ s with
        current_x := x
        current_y := y
        hovered := findWindowAt s.windows x y },
      none)

/-- The `if moved:` tail of `_on_key_press`. -/
def keyMove (s : OverlayState) : OverlayState × Option Action :=
  if s.selecting then (s, none)
  else ({ s with hovered := findWindowAt s.windows s.current_x s.current_y }, none)

/-- `_on_key_press`. -/
def onKeyPress (s : OverlayState) (keyval : Nat) : OverlayState × Option Action :=
  if keyval = KEY_Left then
    keyMove { s with current_x := max 0 (s.current_x - 1) }
  else if keyval = KEY_Right then
    keyMove { s with current_x := min (s.img_width : ℚ) (s.current_x + 1) }
  else if keyval = KEY_Up then
    keyMove { s with current_y := max 0 (s.current_y - 1) }
  else if keyval = KEY_Down then
    keyMove { s with current_y := min (s.img_height : ℚ) (s.current_y + 1) }
  else if keyval = KEY_Escape then (s, some Action.cancel)
  else if keyval = KEY_Print ∨ keyval = KEY_space ∨ keyval = KEY_SYSRQ then
    (s, some (Action.captureRegion 0 0 s.img_width s.img_height))
  else if keyval = KEY_Return ∧ s.selecting then
    match s.start_x, s.start_y with
    | some sx, some sy => (s, regionDragAction sx sy s.current_x s.current_y)
    | _, _ => (s, none)
  else (s, none)

/-- One dispatched event, before the teardown invariant is applied.
`fullscreenSignal` embeds `_glib_signal_handler` followed by
`take_fullscreen_now`: the handler acts only while the module-global
instance is set. -/
def rawStep (s : OverlayState) : Event → OverlayState × Option Action
  | Event.buttonPress b => onButtonPress s b
  | Event.buttonRelease b => onButtonRelease s b
  | Event.motion x y => onMotion s x y
  | Event.key k => onKeyPress s k
  | Event.fullscreenSignal =>
      if s.instanceAlive then
        (s, some (Action.captureRegion 0 0 s.img_width s.img_height))
      else (s, none)

/-- One dispatched event. -/
def step (s : OverlayState) (e : Event) : OverlayState × Option Action :=
  finalize (rawStep s e)

theorem finalize_snd (p : OverlayState × Option Action) : (finalize p).2 = p.2 := by
  rcases p with ⟨s, _ | a⟩ <;> rfl

theorem finalize_fst_fields (p : OverlayState × Option Action) :
    (finalize p).1.current_x = p.1.current_x ∧ (finalize p).1.current_y = p.1.current_y
    ∧ (finalize p).1.img_width = p.1.img_width ∧ (finalize p).1.img_height = p.1.img_height
    ∧ (finalize p).1.selecting = p.1.selecting := by
  rcases p with ⟨s, _ | a⟩ <;> exact ⟨rfl, rfl, rfl, rfl, rfl⟩

/-- The single-threaded event loop: events are dispatched in order until
`Gtk.main_quit()` has run (`resolved`), after which nothing further is
dispatched.  Returns the final state and the list of terminal actions
(each of which tears the overlay down as it is produced). -/
def processEvents (s : OverlayState) : List Event → OverlayState × List Action
  | [] => (s, [])
  | e :: rest =>
      if s.resolved then (s, [])
      else
        let p := step s e
        let q := processEvents p.1 rest
        (q.1, p.2.toList ++ q.2)

/-- `ScreenshotOverlay.__init__`: initial mutable state.  The hover state
starts as `None` and no hit test runs for the initial pointer position;
the pointer starts at the reported cursor position when it lies inside
the snapshot, else at the snapshot's center. -/
def initState (windows : List WindowInfo) (img_width img_height : Int)
    (cursorPos : Option (Int × Int)) : OverlayState :=
  let cur : ℚ × ℚ :=
    match cursorPos with
    | some c =>
        if 0 ≤ c.1 ∧ c.1 < img_width ∧ 0 ≤ c.2 ∧ c.2 < img_height
        then ((c.1 : ℚ), (c.2 : ℚ))
        else ((Int.fdiv img_width 2 : ℚ), (Int.fdiv img_height 2 : ℚ))
    | none => ((Int.fdiv img_width 2 : ℚ), (Int.fdiv img_height 2 : ℚ))
  { windows := windows, img_width := img_width, img_height := img_height,
    selecting := false, start_x := none, start_y := none,
    end_x := none, end_y := none,
    current_x := cur.1, current_y := cur.2, hovered := none,
    resolved := false, instanceAlive := true }

/-! ## Magnifier placement (`Magnifier.draw`, positioning prologue) -/

structure Magnifier where
  radius : ℚ
  zoom : ℚ
  pixels_shown : ℚ
deriving DecidableEq

/-- The constructor defaults `Magnifier(radius=225, zoom=50)`. -/
def defaultMagnifier : Magnifier := { radius := 225, zoom := 50, pixels_shown := 9 }

/-- The placement prologue of `Magnifier.draw`: default offset
`(+40, -40-diameter)` from the cursor, then the four sequential
adjustments against the screen edges. -/
def Magnifier.position (m : Magnifier) (cursor_x cursor_y : ℚ)
    (img_width img_height : Int) : ℚ × ℚ :=
  let diameter := m.radius * 2
  let mx0 := cursor_x + 40
  let mx1 := if mx0 + diameter > (img_width : ℚ) then cursor_x - 40 - diameter else mx0
  let mx2 := if mx1 < 0 then 40 else mx1
  let my0 := cursor_y - 40 - diameter
  let my1 := if my0 < 0 then cursor_y + 40 else my0
  let my2 := if my1 + diameter > (img_height : ℚ) then (img_height : ℚ) - diameter - 40
             else my1
  (mx2, my2)

/-- Whether the magnifier's bounding square (and hence the circle of
diameter `2 * radius` inscribed in it) lies fully inside
`[0, img_width] × [0, img_height]`. -/
def Magnifier.fitsOnScreen (m : Magnifier) (cursor_x cursor_y : ℚ)
    (img_width img_height : Int) : Bool :=
  let p := m.position cursor_x cursor_y img_width img_height
  decide (0 ≤ p.1) && decide (p.1 + m.radius * 2 ≤ (img_width : ℚ))
    && decide (0 ≤ p.2) && decide (p.2 + m.radius * 2 ≤ (img_height : ℚ))

/-! ## Window-specific capture (`capture.window`, `_take_window_screenshot`) -/

/-- The possible outcomes of running the `wayland-capture --window`
subprocess in `capture.window`. -/
inductive CaptureOutcome where
  | ok
  | timeout
  | processNotFound
  | nonZeroExit (stderr : String)
deriving DecidableEq

/-- `capture.window(app_id)`: a path on success; `CaptureError` (or the
uncaught `FileNotFoundError`) carried as `Except.error` otherwise. -/
def captureWindowCall : CaptureOutcome → Except String String
  | CaptureOutcome.ok => Except.ok "capture.png"
  | CaptureOutcome.timeout => Except.error "Window capture timed out"
  | CaptureOutcome.processNotFound => Except.error "wayland-capture not found"
  | CaptureOutcome.nonZeroExit e => Except.error ("Window capture failed: " ++ e)

structure WindowShotResult where
  captureCalls : Nat
  saved : Bool
  cleanedUp : Bool
deriving DecidableEq

/-- `_take_window_screenshot`: bail out before capturing when the window
has no `app_id`; otherwise call `capture.window` once, saving only on
success; every path runs `_cleanup_and_exit` (the `finally` block). -/
def takeWindowScreenshot (app_id : String) (outcome : CaptureOutcome) : WindowShotResult :=
  if app_id = "" then { captureCalls := 0, saved := false, cleanedUp := true }
  else
    match captureWindowCall outcome with
    | Except.ok _ => { captureCalls := 1, saved := true, cleanedUp := true }
    | Except.error _ => { captureCalls := 1, saved := false, cleanedUp := true }

/-! ## Claim C2: hit-testing -/

theorem findWindowAt_cons (a : WindowInfo) (tl : List WindowInfo) (x y : ℚ) :
    findWindowAt (a :: tl) x y
      = if windowContains a x y = true then some a else findWindowAt tl x y := by
  rw [findWindowAt, List.find?_cons]
  cases h : windowContains a x y <;> simp [h, findWindowAt]

theorem findWindowAt_min_z (x y : ℚ) (ws : List WindowInfo) :
    ∀ base : Nat,
      (∀ i, (h : i < ws.length) → (ws.get ⟨i, h⟩).z_order = base + i) →
      ∀ w, findWindowAt ws x y = some w →
        windowContains w x y = true ∧ w ∈ ws ∧
          ∀ w' ∈ ws, windowContains w' x y = true → w.z_order ≤ w'.z_order := by
  induction ws with
  | nil => intro base hz w hf; simp [findWindowAt] at hf
  | cons a tl ih =>
      intro base hz w hf
      by_cases hca : windowContains a x y = true
      · rw [findWindowAt_cons, if_pos hca] at hf
        injection hf with hf
        subst hf
        refine ⟨hca, List.mem_cons_self _ _, ?_⟩
        intro w' hw' _
        have hz0 : a.z_order = base := by
          have := hz 0 (Nat.succ_pos _)
          simpa using this
        rcases List.mem_cons.mp hw' with rfl | hmem
        · exact le_refl _
        · obtain ⟨⟨j, hj⟩, hget⟩ := List.mem_iff_get.mp hmem
          have hzj : w'.z_order = base + (j + 1) := by
            have h2 : (a :: tl).get ⟨j + 1, Nat.succ_lt_succ hj⟩ = tl.get ⟨j, hj⟩ := rfl
            have := hz (j + 1) (Nat.succ_lt_succ hj)
            rw [h2, hget] at this
            exact this
          rw [hz0, hzj]
          omega
      · rw [findWindowAt_cons, if_neg hca] at hf
        have hzs : ∀ i, (h : i < tl.length) → (tl.get ⟨i, h⟩).z_order = (base + 1) + i := by
          intro i h
          have h2 : (a :: tl).get ⟨i + 1, Nat.succ_lt_succ h⟩ = tl.get ⟨i, h⟩ := rfl
          have := hz (i + 1) (Nat.succ_lt_succ h)
          rw [h2] at this
          rw [this]
          omega
        obtain ⟨hcw, hmem, hmin⟩ := ih (base + 1) hzs w hf
        refine ⟨hcw, List.mem_cons_of_mem _ hmem, ?_⟩
        intro w' hw' hcw'
        rcases List.mem_cons.mp hw' with rfl | hmem'
        · exact absurd hcw' hca
        · exact hmin w' hmem' hcw'

/-- Claim C2: for every point `(x, y)` and a window list as produced by
the registry (the i-th entry has `z_order = i`, ascending, frontmost
first), `_find_window_at` returns the contained window with the smallest
`z_order`, where containment is the half-open box test
`x ∈ [wx, wx+ww)`, `y ∈ [wy, wy+wh)`; it returns `none` exactly when no
window's box contains the point. -/
theorem findWindowAt_frontmost (ws : List WindowInfo) (x y : ℚ)
    (hz : ∀ i, (h : i < ws.length) → (ws.get ⟨i, h⟩).z_order = i) :
    (∀ w, findWindowAt ws x y = some w →
        windowContains w x y = true ∧ w ∈ ws ∧
          ∀ w' ∈ ws, windowContains w' x y = true → w.z_order ≤ w'.z_order)
    ∧ (findWindowAt ws x y = none ↔ ∀ w ∈ ws, windowContains w x y = false) := by
  constructor
  · intro w hf
    refine findWindowAt_min_z x y ws 0 ?_ w hf
    intro i h
    rw [hz i h]
    omega
  · rw [findWindowAt, List.find?_eq_none]
    constructor
    · intro h w hw
      have := h w hw
      simpa using this
    · intro h w hw
      simp [h w hw]

/-- The end-to-end hit-test scenario from the specification: two
overlapping windows, the more recently focused one having `z_order = 0`. -/
def winFrontC2 : WindowInfo :=
  { id := 2, title := "w2", app_id := "app2", x := 100, y := 100,
    width := 400, height := 300, focus_timestamp := 200, z_order := 0 }

def winBackC2 : WindowInfo :=
  { id := 1, title := "w1", app_id := "app1", x := 0, y := 0,
    width := 800, height := 600, focus_timestamp := 100, z_order := 1 }

def wsC2 : List WindowInfo := [winFrontC2, winBackC2]

theorem findWindowAt_frontmost_witness :
    windowContains winFrontC2 200 200 = true ∧ winFrontC2 ∈ wsC2 ∧
      ∀ w' ∈ wsC2, windowContains w' 200 200 = true →
        winFrontC2.z_order ≤ w'.z_order :=
  (findWindowAt_frontmost wsC2 200 200 (by decide)).1 winFrontC2 (by decide)

/-! ## Claim C1: click-vs-drag threshold -/

/-- Claim C1: for every press/release gesture of the primary button that
began with a button press (Dragging), if both axis deltas are `< 5` the
release resolves as a click — `CaptureWindow` of the hovered window when
the hover state holds one, else `CaptureRegion` of the full snapshot
bounds; if either axis delta is `≥ 5` it resolves as a region drag (the
drag branch `regionDragAction`). -/
theorem click_vs_drag_threshold (s : OverlayState) (sx sy : ℚ)
    (hsel : s.selecting = true) (hsx : s.start_x = some sx) (hsy : s.start_y = some sy) :
    ((pyAbs (s.current_x - sx) < 5 ∧ pyAbs (s.current_y - sy) < 5) →
        (step s (Event.buttonRelease 1)).2
          = some (match s.hovered with
                  | some w => Action.captureWindow w
                  | none => Action.captureRegion 0 0 s.img_width s.img_height))
    ∧ (¬(pyAbs (s.current_x - sx) < 5 ∧ pyAbs (s.current_y - sy) < 5) →
        (step s (Event.buttonRelease 1)).2
          = regionDragAction sx sy s.current_x s.current_y) := by
  constructor
  · intro hclick
    simp only [step, finalize_snd, rawStep, onButtonRelease,
      if_neg (by omega : ¬ (1 : Nat) ≠ 1)]
    simp only [hsx, hsy]
    rw [if_pos hclick]
    cases hh : s.hovered <;> simp [hh]
  · intro hdrag
    simp only [step, finalize_snd, rawStep, onButtonRelease,
      if_neg (by omega : ¬ (1 : Nat) ≠ 1)]
    simp only [hsx, hsy]
    rw [if_neg hdrag]

def sampleWindow : WindowInfo :=
  { id := 7, title := "term", app_id := "kitty", x := 0, y := 0,
    width := 800, height := 600, focus_timestamp := 300, z_order := 0 }

def dragStateC1 : OverlayState :=
  { windows := [sampleWindow], img_width := 1920, img_height := 1080,
    selecting := true, start_x := some 400, start_y := some 300,
    end_x := none, end_y := none, current_x := 402, current_y := 301,
    hovered := some sampleWindow, resolved := false, instanceAlive := true }

theorem click_vs_drag_threshold_witness :
    (step dragStateC1 (Event.buttonRelease 1)).2
      = some (Action.captureWindow sampleWindow) := by
  have h := (click_vs_drag_threshold dragStateC1 400 300 rfl rfl rfl).1 (by decide)
  simpa [dragStateC1] using h

/-! ## Claim C3: drag normalization and the zero-size check -/

/-- The state used to refute claim C3 as stated: a drag from `(10, 10)`
with the pointer at `(10, 50)` (zero normalized width), then terminated
with Enter. -/
def enterZeroC3 : OverlayState :=
  { windows := [], img_width := 1920, img_height := 1080,
    selecting := true, start_x := some 10, start_y := some 10,
    end_x := none, end_y := none, current_x := 10, current_y := 50,
    hovered := none, resolved := false, instanceAlive := true }

/-- A drag from `(0, 0)` to the fractional position `(11/2, 13/2)`. -/
def fracDragC3 : OverlayState :=
  { windows := [], img_width := 1920, img_height := 1080,
    selecting := true, start_x := some 0, start_y := some 0,
    end_x := none, end_y := none, current_x := mkRat 11 2, current_y := mkRat 13 2,
    hovered := none, resolved := false, instanceAlive := true }

/-- Claim C3 is false as stated, in two ways.  (a) A drag with zero
normalized width ended by the Enter key emits no capture action — but the
machine does not return to idle: `selecting` stays true (the handler
never clears it), so the machine is still Dragging.  (b) For a drag ended
at a fractional position the emitted width is the `int(...)`-truncation
`⌊|end.x - start.x|⌋ = 5`, not the exact `|end.x - start.x| = 11/2` the
claim states. -/
theorem drag_region_claim_counterexample :
    ((step enterZeroC3 (Event.key KEY_Return)).2 = none
      ∧ (step enterZeroC3 (Event.key KEY_Return)).1.selecting = true
      ∧ pyInt (pyAbs (enterZeroC3.current_x - 10)) = 0)
    ∧ ((step fracDragC3 (Event.buttonRelease 1)).2
          = some (Action.captureRegion 0 0 5 6)
      ∧ pyAbs (fracDragC3.current_x - 0) ≠ ((5 : Int) : ℚ)) := by
  decide

/-- Claim C3 (amended): for every drag ended by primary-button release
or by the Enter key while Dragging, the emitted region is the normalized
rectangle after Python `int(...)` truncation — `x = int(min(start.x,
end.x))`, `y = int(min(start.y, end.y))`, `width = int(|end.x -
start.x|)`, `height = int(|end.y - start.y|)`, both non-negative — and
when the truncated width or height equals 0, no capture action is
emitted; after a button release the machine is back to not-selecting,
while after a zero-size Enter the state is unchanged (still Dragging). -/
theorem drag_region_normalized (s : OverlayState) (sx sy : ℚ)
    (hsx : s.start_x = some sx) (hsy : s.start_y = some sy)
    (hdrag : ¬(pyAbs (s.current_x - sx) < 5 ∧ pyAbs (s.current_y - sy) < 5)) :
    ((step s (Event.buttonRelease 1)).2 = regionDragAction sx sy s.current_x s.current_y
      ∧ (step s (Event.buttonRelease 1)).1.selecting = false)
    ∧ (0 ≤ pyInt (pyAbs (s.current_x - sx)) ∧ 0 ≤ pyInt (pyAbs (s.current_y - sy)))
    ∧ ((pyInt (pyAbs (s.current_x - sx)) = 0 ∨ pyInt (pyAbs (s.current_y - sy)) = 0) →
        regionDragAction sx sy s.current_x s.current_y = none)
    ∧ (∀ a, regionDragAction sx sy s.current_x s.current_y = some a →
        a = Action.captureRegion (pyInt (min sx s.current_x)) (pyInt (min sy s.current_y))
              (pyInt (pyAbs (s.current_x - sx))) (pyInt (pyAbs (s.current_y - sy))))
    ∧ (s.selecting = true →
        (step s (Event.key KEY_Return)).2 = regionDragAction sx sy s.current_x s.current_y
        ∧ (regionDragAction sx sy s.current_x s.current_y = none →
            (step s (Event.key KEY_Return)).1 = s)) := by
  have hrel : rawStep s (Event.buttonRelease 1)
      = ({ s with selecting := false,
                  end_x := some s.current_x, end_y := some s.current_y },
          regionDragAction sx sy s.current_x s.current_y) := by
    simp only [rawStep, onButtonRelease, if_neg (by omega : ¬ (1 : Nat) ≠ 1)]
    simp only [hsx, hsy]
    rw [if_neg hdrag]
  refine ⟨?_, ⟨pyInt_nonneg (pyAbs_nonneg _), pyInt_nonneg (pyAbs_nonneg _)⟩, ?_, ?_, ?_⟩
  · constructor
    · rw [step, finalize_snd, hrel]
    · rw [step, (finalize_fst_fields _).2.2.2.2, hrel]
  · intro h0
    simp only [regionDragAction]
    rw [if_neg]
    rintro ⟨hw, hh⟩
    rcases h0 with h | h <;> omega
  · intro a ha
    simp only [regionDragAction] at ha
    by_cases hc : 0 < pyInt (pyAbs (s.current_x - sx)) ∧ 0 < pyInt (pyAbs (s.current_y - sy))
    · rw [if_pos hc] at ha
      injection ha with ha
      exact ha.symm
    · rw [if_neg hc] at ha
      exact absurd ha (by simp)
  · intro hsel
    have hkey : rawStep s (Event.key KEY_Return)
        = (s, regionDragAction sx sy s.current_x s.current_y) := by
      simp only [rawStep]
      unfold onKeyPress
      rw [if_neg (by decide : ¬ KEY_Return = KEY_Left),
          if_neg (by decide : ¬ KEY_Return = KEY_Right),
          if_neg (by decide : ¬ KEY_Return = KEY_Up),
          if_neg (by decide : ¬ KEY_Return = KEY_Down),
          if_neg (by decide : ¬ KEY_Return = KEY_Escape),
          if_neg (by decide : ¬ (KEY_Return = KEY_Print ∨ KEY_Return = KEY_space
            ∨ KEY_Return = KEY_SYSRQ)),
          if_pos (⟨rfl, hsel⟩ : KEY_Return = KEY_Return ∧ s.selecting = true)]
      simp only [hsx, hsy]
    constructor
    · rw [step, finalize_snd, hkey]
    · intro hnone
      rw [step, hkey, hnone]
      rfl

def fracDragWitnessC3 : OverlayState :=
  { windows := [], img_width := 1920, img_height := 1080,
    selecting := true, start_x := some 10, start_y := some 10,
    end_x := none, end_y := none, current_x := 110, current_y := 160,
    hovered := none, resolved := false, instanceAlive := true }

theorem drag_region_normalized_witness :
    (step fracDragWitnessC3 (Event.buttonRelease 1)).2
        = regionDragAction 10 10 fracDragWitnessC3.current_x fracDragWitnessC3.current_y
      ∧ regionDragAction 10 10 110 160 = some (Action.captureRegion 10 10 100 150) := by
  have h := (drag_region_normalized fracDragWitnessC3 10 10 rfl rfl (by decide)).1.1
  exact ⟨h, by decide⟩

/-! ## Claim C5: magnifier placement -/

/-- Claim C5 is false as stated: the flip-then-clamp sequence keeps a
radius-225 magnifier on-screen only when the canvas is at least
`490 = diameter + 40` wide and tall.  On a `480 × 1080` canvas with the
pointer at `(100, 500)` (inside the canvas) the horizontal flip goes
negative, the fallback `mag_x = 40` is applied, and the right edge
`40 + 450 = 490` sticks out past `width = 480`. -/
theorem magnifier_placement_counterexample :
    (0 : ℚ) ≤ 100 ∧ (100 : ℚ) ≤ ((480 : Int) : ℚ)
    ∧ (0 : ℚ) ≤ 500 ∧ (500 : ℚ) ≤ ((1080 : Int) : ℚ)
    ∧ defaultMagnifier.fitsOnScreen 100 500 480 1080 = false := by
  decide

/-- Claim C5 (amended): for every pointer position in
`[0, width] × [0, height]`, on a canvas at least 490 wide and 490 tall
(diameter 450 plus the 40-pixel margin), the default radius-225
magnifier is placed fully inside `[0, width] × [0, height]`; in
particular this covers pointer `(0, 0)` on a `1920 × 1080` canvas. -/
theorem magnifier_fits (cx cy : ℚ) (W H : Int)
    (hx0 : 0 ≤ cx) (hx1 : cx ≤ (W : ℚ)) (hy0 : 0 ≤ cy) (hy1 : cy ≤ (H : ℚ))
    (hW : (490 : ℚ) ≤ (W : ℚ)) (hH : (490 : ℚ) ≤ (H : ℚ)) :
    defaultMagnifier.fitsOnScreen cx cy W H = true := by
  unfold Magnifier.fitsOnScreen Magnifier.position defaultMagnifier
  simp only [Bool.and_eq_true, decide_eq_true_eq]
  split_ifs <;> refine ⟨⟨⟨?_, ?_⟩, ?_⟩, ?_⟩ <;> linarith

theorem magnifier_fits_witness :
    defaultMagnifier.fitsOnScreen 0 0 1920 1080 = true :=
  magnifier_fits 0 0 1920 1080 (by decide) (by decide) (by decide) (by decide)
    (by decide) (by decide)

/-! ## Claim C6: pointer clamping -/

/-- The invariant claimed for `PointerState`. -/
def pointerInBounds (s : OverlayState) : Prop :=
  0 ≤ s.current_x ∧ s.current_x ≤ (s.img_width : ℚ)
    ∧ 0 ≤ s.current_y ∧ s.current_y ≤ (s.img_height : ℚ)

instance (s : OverlayState) : Decidable (pointerInBounds s) := by
  unfold pointerInBounds; infer_instance

def inBoundsStateC6 : OverlayState :=
  { windows := [], img_width := 1920, img_height := 1080, selecting := false,
    start_x := none, start_y := none, end_x := none, end_y := none,
    current_x := 400, current_y := 300, hovered := none,
    resolved := false, instanceAlive := true }

/-- Claim C6 is false as stated: `_on_motion` stores the raw event
coordinates without clamping, so a motion event carrying an
out-of-bounds position (here `(-10, 5)`) leaves the pointer state
outside `[0, width] × [0, height]`. -/
theorem pointer_bounds_counterexample :
    pointerInBounds inBoundsStateC6
    ∧ ¬ pointerInBounds (step inBoundsStateC6 (Event.motion (-10) 5)).1 := by
  decide

theorem pointerInBounds_finalize (p : OverlayState × Option Action)
    (h : pointerInBounds p.1) : pointerInBounds (finalize p).1 := by
  rcases p with ⟨t, _ | a⟩
  · exact h
  · simpa [pointerInBounds, cleanup] using h

theorem pointerInBounds_of_fields {t s : OverlayState}
    (h1 : t.current_x = s.current_x) (h2 : t.current_y = s.current_y)
    (h3 : t.img_width = s.img_width) (h4 : t.img_height = s.img_height)
    (hb : pointerInBounds s) : pointerInBounds t := by
  unfold pointerInBounds at *
  rw [h1, h2, h3, h4]
  exact hb

theorem onButtonRelease_fields (s : OverlayState) (b : Nat) :
    (onButtonRelease s b).1.current_x = s.current_x
    ∧ (onButtonRelease s b).1.current_y = s.current_y
    ∧ (onButtonRelease s b).1.img_width = s.img_width
    ∧ (onButtonRelease s b).1.img_height = s.img_height := by
  unfold onButtonRelease
  split_ifs with h1
  · exact ⟨rfl, rfl, rfl, rfl⟩
  · cases hx : s.start_x <;> cases hy : s.start_y <;> simp only [hx, hy] <;>
      first
        | simp
        | (split_ifs <;> cases hov : s.hovered <;> simp [hov])

theorem keyMove_fields (t : OverlayState) :
    (keyMove t).1.current_x = t.current_x ∧ (keyMove t).1.current_y = t.current_y
    ∧ (keyMove t).1.img_width = t.img_width ∧ (keyMove t).1.img_height = t.img_height := by
  unfold keyMove
  split_ifs <;> exact ⟨rfl, rfl, rfl, rfl⟩

/-- Claim C6 (amended): the arrow-key ±1px adjustments do clamp the
pointer into `[0, width] × [0, height]`, and every other event leaves an
in-bounds pointer in bounds — except that motion events store the raw
event coordinates unclamped, so the invariant is preserved only under
the assumption that motion coordinates themselves lie in bounds. -/
theorem pointer_bounds (s : OverlayState) (e : Event)
    (hb : pointerInBounds s)
    (hW : (0 : ℚ) ≤ (s.img_width : ℚ)) (hH : (0 : ℚ) ≤ (s.img_height : ℚ))
    (hm : ∀ x y, e = Event.motion x y →
        0 ≤ x ∧ x ≤ (s.img_width : ℚ) ∧ 0 ≤ y ∧ y ≤ (s.img_height : ℚ)) :
    pointerInBounds (step s e).1 := by
  obtain ⟨b1, b2, b3, b4⟩ := hb
  rw [step]
  apply pointerInBounds_finalize
  cases e with
  | buttonPress b =>
      show pointerInBounds (onButtonPress s b).1
      unfold onButtonPress
      split_ifs <;> exact ⟨b1, b2, b3, b4⟩
  | buttonRelease b =>
      show pointerInBounds (onButtonRelease s b).1
      have hf := onButtonRelease_fields s b
      exact pointerInBounds_of_fields hf.1 hf.2.1 hf.2.2.1 hf.2.2.2 ⟨b1, b2, b3, b4⟩
  | motion x y =>
      obtain ⟨m1, m2, m3, m4⟩ := hm x y rfl
      show pointerInBounds (onMotion s x y).1
      unfold onMotion
      split_ifs <;> exact ⟨m1, m2, m3, m4⟩
  | key k =>
      show pointerInBounds (onKeyPress s k).1
      unfold onKeyPress
      split_ifs with h1 h2 h3 h4 h5 h6 h7
      · have hf := keyMove_fields { s with current_x := max 0 (s.current_x - 1) }
        refine pointerInBounds_of_fields hf.1 hf.2.1 hf.2.2.1 hf.2.2.2 ?_
        exact ⟨le_max_left _ _, max_le hW (by linarith), b3, b4⟩
      · have hf := keyMove_fields { s with current_x := min (s.img_width : ℚ) (s.current_x + 1) }
        refine pointerInBounds_of_fields hf.1 hf.2.1 hf.2.2.1 hf.2.2.2 ?_
        exact ⟨le_min hW (by linarith), min_le_left _ _, b3, b4⟩
      · have hf := keyMove_fields { s with current_y := max 0 (s.current_y - 1) }
        refine pointerInBounds_of_fields hf.1 hf.2.1 hf.2.2.1 hf.2.2.2 ?_
        exact ⟨b1, b2, le_max_left _ _, max_le hH (by linarith)⟩
      · have hf := keyMove_fields { s with current_y := min (s.img_height : ℚ) (s.current_y + 1) }
        refine pointerInBounds_of_fields hf.1 hf.2.1 hf.2.2.1 hf.2.2.2 ?_
        exact ⟨b1, b2, le_min hH (by linarith), min_le_left _ _⟩
      · exact ⟨b1, b2, b3, b4⟩
      · exact ⟨b1, b2, b3, b4⟩
      · have : (match s.start_x, s.start_y with
            | some sx, some sy => (s, regionDragAction sx sy s.current_x s.current_y)
            | _, _ => ((s : OverlayState), (none : Option Action))).1 = s := by
          cases s.start_x <;> cases s.start_y <;> rfl
        rw [this]
        exact ⟨b1, b2, b3, b4⟩
      · exact ⟨b1, b2, b3, b4⟩
  | fullscreenSignal =>
      show pointerInBounds (if s.instanceAlive then
          (s, some (Action.captureRegion 0 0 s.img_width s.img_height))
        else (s, none)).1
      split_ifs <;> exact ⟨b1, b2, b3, b4⟩

theorem pointer_bounds_witness :
    pointerInBounds (step inBoundsStateC6 (Event.key KEY_Left)).1 :=
  pointer_bounds inBoundsStateC6 (Event.key KEY_Left) (by decide) (by decide) (by decide)
    (fun x y h => Event.noConfusion h)

/-! ## Claim C7: fullscreen keys and the external signal -/

/-- Claim C7: pressing the Print, Space, or SysRq key, and delivery of
the external fullscreen-signal while the overlay instance is live, each
produce terminal action `CaptureRegion(full snapshot bounds)` in every
selection state, including mid-drag, and resolve the machine (the
in-progress gesture is abandoned). -/
theorem fullscreen_overrides (s : OverlayState) (halive : s.instanceAlive = true) :
    ((step s (Event.key KEY_Print)).2
        = some (Action.captureRegion 0 0 s.img_width s.img_height)
      ∧ (step s (Event.key KEY_Print)).1.resolved = true)
    ∧ ((step s (Event.key KEY_space)).2
        = some (Action.captureRegion 0 0 s.img_width s.img_height)
      ∧ (step s (Event.key KEY_space)).1.resolved = true)
    ∧ ((step s (Event.key KEY_SYSRQ)).2
        = some (Action.captureRegion 0 0 s.img_width s.img_height)
      ∧ (step s (Event.key KEY_SYSRQ)).1.resolved = true)
    ∧ ((step s Event.fullscreenSignal).2
        = some (Action.captureRegion 0 0 s.img_width s.img_height)
      ∧ (step s Event.fullscreenSignal).1.resolved = true) := by
  refine ⟨?_, ?_, ?_, ?_⟩
  · have hraw : rawStep s (Event.key KEY_Print)
        = (s, some (Action.captureRegion 0 0 s.img_width s.img_height)) := by
      simp only [rawStep]
      unfold onKeyPress
      rw [if_neg (by decide : ¬ KEY_Print = KEY_Left),
          if_neg (by decide : ¬ KEY_Print = KEY_Right),
          if_neg (by decide : ¬ KEY_Print = KEY_Up),
          if_neg (by decide : ¬ KEY_Print = KEY_Down),
          if_neg (by decide : ¬ KEY_Print = KEY_Escape),
          if_pos (Or.inl rfl : KEY_Print = KEY_Print ∨ KEY_Print = KEY_space
            ∨ KEY_Print = KEY_SYSRQ)]
    exact ⟨by rw [step, finalize_snd, hraw], by rw [step, hraw]; rfl⟩
  · have hraw : rawStep s (Event.key KEY_space)
        = (s, some (Action.captureRegion 0 0 s.img_width s.img_height)) := by
      simp only [rawStep]
      unfold onKeyPress
      rw [if_neg (by decide : ¬ KEY_space = KEY_Left),
          if_neg (by decide : ¬ KEY_space = KEY_Right),
          if_neg (by decide : ¬ KEY_space = KEY_Up),
          if_neg (by decide : ¬ KEY_space = KEY_Down),
          if_neg (by decide : ¬ KEY_space = KEY_Escape),
          if_pos (Or.inr (Or.inl rfl) : KEY_space = KEY_Print ∨ KEY_space = KEY_space
            ∨ KEY_space = KEY_SYSRQ)]
    exact ⟨by rw [step, finalize_snd, hraw], by rw [step, hraw]; rfl⟩
  · have hraw : rawStep s (Event.key KEY_SYSRQ)
        = (s, some (Action.captureRegion 0 0 s.img_width s.img_height)) := by
      simp only [rawStep]
      unfold onKeyPress
      rw [if_neg (by decide : ¬ KEY_SYSRQ = KEY_Left),
          if_neg (by decide : ¬ KEY_SYSRQ = KEY_Right),
          if_neg (by decide : ¬ KEY_SYSRQ = KEY_Up),
          if_neg (by decide : ¬ KEY_SYSRQ = KEY_Down),
          if_neg (by decide : ¬ KEY_SYSRQ = KEY_Escape),
          if_pos (Or.inr (Or.inr rfl) : KEY_SYSRQ = KEY_Print ∨ KEY_SYSRQ = KEY_space
            ∨ KEY_SYSRQ = KEY_SYSRQ)]
    exact ⟨by rw [step, finalize_snd, hraw], by rw [step, hraw]; rfl⟩
  · have hraw : rawStep s Event.fullscreenSignal
        = (s, some (Action.captureRegion 0 0 s.img_width s.img_height)) := by
      simp only [rawStep]
      rw [if_pos halive]
    exact ⟨by rw [step, finalize_snd, hraw], by rw [step, hraw]; rfl⟩

/-- A mid-drag state used to exercise the fullscreen overrides. -/
def dragStateC7 : OverlayState :=
  { windows := [], img_width := 1920, img_height := 1080, selecting := true,
    start_x := some 100, start_y := some 100, end_x := none, end_y := none,
    current_x := 500, current_y := 400, hovered := none, resolved := false,
    instanceAlive := true }

theorem fullscreen_overrides_witness :
    (step dragStateC7 Event.fullscreenSignal).2
        = some (Action.captureRegion 0 0 1920 1080)
    ∧ (step dragStateC7 (Event.key KEY_Print)).2
        = some (Action.captureRegion 0 0 1920 1080) := by
  have h := fullscreen_overrides dragStateC7 rfl
  exact ⟨h.2.2.2.1, h.1.1⟩

/-! ## Claim C8: teardown exactly once -/

theorem step_resolved_of_some (s : OverlayState) (e : Event) (a : Action)
    (h : (step s e).2 = some a) : (step s e).1.resolved = true := by
  rw [step] at h ⊢
  rcases hp : rawStep s e with ⟨t, _ | b⟩
  · rw [hp] at h
    exact absurd h (by simp [finalize])
  · rfl

theorem processEvents_resolved (s : OverlayState) (h : s.resolved = true)
    (evs : List Event) : processEvents s evs = (s, []) := by
  cases evs with
  | nil => rfl
  | cons e rest => simp [processEvents, h]

/-- Claim C8: over any sequence of dispatched events, the teardown
sequence (`_cleanup_and_exit`, which every terminal action triggers)
runs at most once: the event loop stops dispatching once resolved, so at
most one terminal action is ever produced; and from an already-torn-down
state (the result of `cleanup`) no further event produces an action or a
second teardown. -/
theorem teardown_at_most_once (s : OverlayState) (evs : List Event) :
    (processEvents s evs).2.length ≤ 1
    ∧ processEvents (cleanup s) evs = (cleanup s, []) := by
  constructor
  · induction evs generalizing s with
    | nil => simp [processEvents]
    | cons e rest ih =>
        by_cases hr : s.resolved = true
        · simp [processEvents, hr]
        · have hr' : s.resolved = false := by
            simpa using hr
          simp only [processEvents, hr', Bool.false_eq_true, if_false]
          rcases hs : step s e with ⟨t, _ | a⟩
          · simpa [hs] using ih t
          · have ht : t.resolved = true := by
              have := step_resolved_of_some s e a (by rw [hs])
              rwa [hs] at this
            simp [hs, processEvents_resolved t ht rest]
  · exact processEvents_resolved (cleanup s) rfl evs

/-! ## Claim C9: window-capture failure handling -/

/-- Claim C9: for every `CaptureWindow` terminal action whose
window-specific capture fails (timeout, process not found, non-zero
exit) or whose window has no app identifier, no save is performed, the
capture is not retried (at most one subprocess call), and the overlay
still tears down. -/
theorem window_capture_failure_no_save (app_id : String) (outcome : CaptureOutcome)
    (hfail : app_id = "" ∨ ∃ e, captureWindowCall outcome = Except.error e) :
    (takeWindowScreenshot app_id outcome).saved = false
    ∧ (takeWindowScreenshot app_id outcome).cleanedUp = true
    ∧ (takeWindowScreenshot app_id outcome).captureCalls ≤ 1 := by
  unfold takeWindowScreenshot
  by_cases h0 : app_id = ""
  · rw [if_pos h0]
    exact ⟨rfl, rfl, Nat.zero_le 1⟩
  · rcases hfail with h | ⟨e, he⟩
    · exact absurd h h0
    · rw [if_neg h0, he]
      exact ⟨rfl, rfl, Nat.le_refl 1⟩

theorem window_capture_failure_no_save_witness :
    (takeWindowScreenshot "kitty" CaptureOutcome.timeout).saved = false
    ∧ (takeWindowScreenshot "kitty" CaptureOutcome.timeout).cleanedUp = true
    ∧ (takeWindowScreenshot "kitty" CaptureOutcome.timeout).captureCalls ≤ 1 :=
  window_capture_failure_no_save "kitty" CaptureOutcome.timeout
    (Or.inr ⟨"Window capture timed out", rfl⟩)

/-! ## Claim C10: initial hover state -/

theorem processEvents_cons (s : OverlayState) (e : Event) (rest : List Event)
    (h : s.resolved = false) :
    processEvents s (e :: rest)
      = ((processEvents (step s e).1 rest).1,
          (step s e).2.toList ++ (processEvents (step s e).1 rest).2) := by
  simp [processEvents, h]

/-- A primary press/release pair with no intervening motion, from a
state whose hover is `none`, resolves as a full-snapshot region
capture. -/
theorem press_release_click (s : OverlayState)
    (hres : s.resolved = false) (hhov : s.hovered = none) :
    (processEvents s [Event.buttonPress 1, Event.buttonRelease 1]).2
      = [Action.captureRegion 0 0 s.img_width s.img_height] := by
  have hax : pyAbs (s.current_x - s.current_x) < 5 := by
    rw [sub_self]; decide
  have hay : pyAbs (s.current_y - s.current_y) < 5 := by
    rw [sub_self]; decide
  have h1 : step s (Event.buttonPress 1)
      = ({ s with
            selecting := true
            start_x := some s.current_x
            start_y := some s.current_y }, none) := by
    rw [step]
    simp only [rawStep, onButtonPress]
    simp [finalize]
  have hres1 : ({ s with
      selecting := true
      start_x := some s.current_x
      start_y := some s.current_y } : OverlayState).resolved = false := hres
  have h2 : (step { s with
        selecting := true
        start_x := some s.current_x
        start_y := some s.current_y } (Event.buttonRelease 1)).2
      = some (Action.captureRegion 0 0 s.img_width s.img_height) := by
    rw [step, finalize_snd]
    simp only [rawStep, onButtonRelease, if_neg (by omega : ¬ (1 : Nat) ≠ 1)]
    rw [if_pos ⟨hax, hay⟩]
    simp [hhov]
  rw [processEvents_cons s (Event.buttonPress 1) [Event.buttonRelease 1] hres, h1]
  dsimp only
  rw [processEvents_cons _ (Event.buttonRelease 1) [] hres1]
  rw [h2]
  simp [processEvents]

/-- Claim C10: at overlay start the hover state is `none` and no hit
test runs for the initial pointer position; a primary click arriving
before any motion or arrow-key event therefore resolves as
`CaptureRegion(full snapshot bounds)` even when the initial (in-bounds)
pointer position lies inside a window of the registry list. -/
theorem initial_hover_none_click_fullscreen (ws : List WindowInfo) (W H : Int)
    (px py : Int) (w : WindowInfo)
    (hx0 : 0 ≤ px) (hx1 : px < W) (hy0 : 0 ≤ py) (hy1 : py < H)
    (hmem : w ∈ ws) (hc : windowContains w (px : ℚ) (py : ℚ) = true) :
    (initState ws W H (some (px, py))).hovered = none
    ∧ (processEvents (initState ws W H (some (px, py)))
        [Event.buttonPress 1, Event.buttonRelease 1]).2
      = [Action.captureRegion 0 0 W H] := by
  exact ⟨rfl, press_release_click (initState ws W H (some (px, py))) rfl rfl⟩

def winC10 : WindowInfo :=
  { id := 3, title := "editor", app_id := "code", x := 0, y := 0,
    width := 800, height := 600, focus_timestamp := 50, z_order := 0 }

theorem initial_hover_none_click_fullscreen_witness :
    (initState [winC10] 1920 1080 (some (200, 200))).hovered = none
    ∧ (processEvents (initState [winC10] 1920 1080 (some (200, 200)))
        [Event.buttonPress 1, Event.buttonRelease 1]).2
      = [Action.captureRegion 0 0 1920 1080] :=
  initial_hover_none_click_fullscreen [winC10] 1920 1080 200 200 winC10
    (by decide) (by decide) (by decide) (by decide) (by decide) (by decide)

end ScreenshotTool
